import Mathlib

/-!
A shallow embedding of the request-preparation and response-caching logic of
`easyrqst` (file `httpmaker.go`).  Go maps are modelled as association lists
(Go guarantees unique keys; iteration order is irrelevant to every property
proved here), `nil`-able Go values as `Option`, Go errors as `String`, and
`time.Duration` as a `Nat` (nanoseconds).  External collaborators — the cache
capability (`ICacheFn`), the retrying transport (`http.Client.Do`) and the
file system read during multipart encoding — are modelled as oracles supplied
to each call, and the calls this layer makes on them are recorded in an
explicit effect trace.
-/

namespace Easyrqst

/-- Go errors, modelled by their message. -/
abbrev GoError := String

/-- The Go runtime values that can appear as a request payload (`any`).
`strMap` is `map[string]string`, `anyMap` is `map[string]interface\x7b\x7d`;
a Go type assertion distinguishes those two even when every value of an
`anyMap` happens to be a string, and the embedding keeps them distinct for
the same reason. -/
inductive GoVal where
  | str (s : String)
  | int (n : Int)
  | bool (b : Bool)
  | strMap (m : List (String × String))
  | anyMap (m : List (String × GoVal))

/-- Go map read `m[k]` for a `map[string]string`: first binding of `k`. -/
def lookupStr (m : List (String × String)) (k : String) : Option String :=
  (m.find? (fun p => p.1 = k)).map (fun p => p.2)

/-- Go map read `m[k]` returning the zero value `""` when `k` is absent. -/
def mapIndex (m : List (String × String)) (k : String) : String :=
  (lookupStr m k).getD ""

/-- Go map write `m[k] = v`. -/
def setKey (m : List (String × String)) (k v : String) : List (String × String) :=
  match m with
  | [] => [(k, v)]
  | (k₁, v₁) :: rest => if k₁ = k then (k, v) :: rest else (k₁, v₁) :: setKey rest k v

/-- Hexadecimal digit used by percent-encoding (upper case, as Go emits). -/
def hexDigit (n : Nat) : Char :=
  if n < 10 then Char.ofNat (48 + n) else Char.ofNat (55 + n)

/-- Model of `url.QueryEscape` on the ASCII fragment of a string: unreserved bytes are
kept, space becomes `+`, everything else becomes `%XX`. -/
def queryEscape (s : String) : String :=
  s.data.foldl
    (fun acc c =>
      if c.isAlphanum || c = '-' || c = '_' || c = '.' || c = '~' then
        acc.push c
      else if c = ' ' then
        acc.push '+'
      else
        ((acc.push '%').push (hexDigit (c.toNat / 16 % 16))).push (hexDigit (c.toNat % 16)))
    ""

/-- Stable insertion of a binding into a key-sorted association list. -/
def insertSorted (p : String × String) :
    List (String × String) → List (String × String)
  | [] => [p]
  | q :: rest => if p.1 ≤ q.1 then p :: q :: rest else q :: insertSorted p rest

/-- Stable sort of an association list by key — `url.Values.Encode` emits keys
in sorted order. -/
def sortByKey : List (String × String) → List (String × String)
  | [] => []
  | p :: rest => insertSorted p (sortByKey rest)

/-- Model of `url.Values.Encode`: key-sorted `k=v` pairs joined by `&`, both sides
percent-escaped. -/
def encodeQuery (q : List (String × String)) : String :=
  String.intercalate "&"
    ((sortByKey q).map (fun p => queryEscape p.1 ++ "=" ++ queryEscape p.2))

/-- JSON string literal (escaping beyond the quote delimiters is irrelevant
to every claim and omitted). -/
def jsonStr (s : String) : String :=
  "\"" ++ s ++ "\""

/-- Model of `fmt.Sprintf` with verb `%v`, on the payload values of the model. -/
def goFmtV : GoVal → String
  | .str s => s
  | .int n => toString n
  | .bool b => if b then "true" else "false"
  | .strMap m => "map[" ++ String.intercalate " " (m.map (fun p => p.1 ++ ":" ++ p.2)) ++ "]"
  | .anyMap _ => "map[...]"

mutual

/-- Model of `json.Marshal` on a payload value (all payload shapes of the model are
marshalable, so the Go error path is unreachable here). -/
def jsonMarshalVal : GoVal → String
  | .str s => jsonStr s
  | .int n => toString n
  | .bool b => if b then "true" else "false"
  | .strMap m => "\x7b" ++ String.intercalate ","
      (m.map (fun p => jsonStr p.1 ++ ":" ++ jsonStr p.2)) ++ "\x7d"
  | .anyMap m => "\x7b" ++ jsonFields m ++ "\x7d"

/-- The comma-joined fields of a marshaled JSON object. -/
def jsonFields : List (String × GoVal) → String
  | [] => ""
  | [(k, v)] => jsonStr k ++ ":" ++ jsonMarshalVal v
  | (k, v) :: p :: rest => jsonStr k ++ ":" ++ jsonMarshalVal v ++ "," ++ jsonFields (p :: rest)

end

/-- Model of `json.Marshal` on the `any`-typed payload field; a `nil` payload marshals
to `null`. -/
def jsonMarshal : Option GoVal → String
  | none => "null"
  | some v => jsonMarshalVal v

/-- The `application/x-www-form-urlencoded` body: `url.Values` built from the map
(`data.Set` on unique keys), then `Encode`. -/
def formEncode (m : List (String × String)) : String :=
  encodeQuery m

/-- The element tree `convertToXMLElements` builds: one element per key,
nested maps become children, non-string scalars are stringified with `%v`. -/
inductive XmlElement where
  | node (name : String) (content : String) (children : List XmlElement)

/-- Function `convertToXMLElements` from `httpmaker.go`. -/
def convertToXMLElements : List (String × GoVal) → List XmlElement
  | [] => []
  | (k, v) :: rest =>
      (match v with
       | .str s => XmlElement.node k s []
       | .anyMap m => XmlElement.node k "" (convertToXMLElements m)
       | other => XmlElement.node k (goFmtV other) []) :: convertToXMLElements rest

mutual

/-- One element of `xml.MarshalIndent(..., "", "  ")` output at a given
indentation. -/
def renderXmlElement (indent : String) : XmlElement → String
  | .node name content [] =>
      indent ++ "<" ++ name ++ ">" ++ content ++ "</" ++ name ++ ">"
  | .node name content (c :: cs) =>
      indent ++ "<" ++ name ++ ">" ++ content ++ "\n" ++
        renderXmlElements (indent ++ "  ") (c :: cs) ++ "\n" ++
        indent ++ "</" ++ name ++ ">"

/-- Sibling elements joined by newlines. -/
def renderXmlElements (indent : String) : List XmlElement → String
  | [] => ""
  | [e] => renderXmlElement indent e
  | e :: f :: rest => renderXmlElement indent e ++ "\n" ++ renderXmlElements indent (f :: rest)

end

/-- Function `handleXMLData`: convert to the element tree and marshal with two-space
indentation. -/
def handleXMLData (data : List (String × GoVal)) : String :=
  renderXmlElements "" (convertToXMLElements data)

/-- The file system as seen by multipart encoding: `os.Open` + `io.Copy` of a
path, which either yields the file bytes or fails. -/
abbrev FileSystem := String → Except GoError String

/-- Model of `filepath.Base`. -/
def filepathBase (p : String) : String :=
  match (p.splitOn "/").reverse with
  | [] => p
  | last :: _ => last

/-- The multipart boundary.  Go draws it at random inside
`multipart.NewWriter`; the model fixes one representative, which no claim
inspects. -/
def multipartBoundary : String := "easyrqstboundary"

/-- One `Content-Disposition` form field part. -/
def multipartField (k v : String) : String :=
  "--" ++ multipartBoundary ++ "\r\nContent-Disposition: form-data; name=\"" ++ k ++
    "\"\r\n\r\n" ++ v ++ "\r\n"

/-- One file part: field named by the map key, filename the base name of the
path, body the file contents. -/
def multipartFilePart (fieldName filePath contents : String) : String :=
  "--" ++ multipartBoundary ++ "\r\nContent-Disposition: form-data; name=\"" ++ fieldName ++
    "\"; filename=\"" ++ filepathBase filePath ++ "\"\r\n\r\n" ++ contents ++ "\r\n"

/-- Reads every file of the `files` map through the file system, failing like
`handleMultipartFormData` does when `os.Open` fails. -/
def readFileParts (fs : FileSystem) :
    List (String × String) → Except GoError (List String)
  | [] => .ok []
  | (fieldName, filePath) :: rest =>
      match fs filePath with
      | .error e => .error ("failed to open file " ++ filePath ++ ": " ++ e)
      | .ok contents =>
          match readFileParts fs rest with
          | .error e => .error e
          | .ok parts => .ok (multipartFilePart fieldName filePath contents :: parts)

/-- Function `handleMultipartFormData`: write every payload field, then stream every
file, close the writer, and report the boundary-carrying content type.
`WriteField` against an in-memory buffer cannot fail; `os.Open` can. -/
def handleMultipartFormData (fs : FileSystem) (payload : List (String × String))
    (files : List (String × String)) : Except GoError (String × String) :=
  match readFileParts fs files with
  | .error e => .error e
  | .ok fileParts =>
      .ok (String.join (payload.map (fun p => multipartField p.1 p.2)) ++
             String.join fileParts ++ "--" ++ multipartBoundary ++ "--\r\n",
           "multipart/form-data; boundary=" ++ multipartBoundary)

/-- Struct `cacheObj`: the per-call cache binding.  `fncsPresent` records whether the
`ICacheFn` interface value is non-`nil` (the guard `cacheObj.fncs != nil`);
the capability's behaviour itself lives in the `World` oracle. -/
structure CacheObj where
  fncsPresent : Bool
  expiry : Nat
  idempotency : String
deriving DecidableEq

/-- Struct `ReqOptions` from `httpmaker.go`.  `files` and `payload` are `nil`-able
(`none`); `queries` and `headers` start as fresh empty maps. -/
structure ReqOptions where
  queries : List (String × String)
  headers : List (String × String)
  files : Option (List (String × String))
  cacheObj : Option CacheObj
  payload : Option GoVal

/-- The fresh options struct `prepareRequest` begins from. -/
def ReqOptions.init : ReqOptions :=
  { queries := [], headers := [], files := none, cacheObj := none, payload := none }

/-- The functional options (`TReqOption`).  `WithPayload`/`WithFiles` accept a
`nil` argument, hence the `Option`; `WithCache` records whether the supplied
`ICacheFn` was non-`nil`. -/
inductive TReqOption where
  | withQueries (qs : List (String × String))
  | withHeaders (hs : List (String × String))
  | withPayload (p : Option GoVal)
  | withFiles (fs : Option (List (String × String)))
  | withCache (fncsPresent : Bool) (period : Nat) (idempotency : String)

/-- Whether an option is a `WithCache` option. -/
def TReqOption.isCacheOpt : TReqOption → Bool
  | .withCache _ _ _ => true
  | _ => false

/-- Application of one functional option to the options struct. -/
def applyOption (o : ReqOptions) : TReqOption → ReqOptions
  | .withQueries qs => { o with queries := qs }
  | .withHeaders hs => { o with headers := hs }
  | .withPayload p => { o with payload := p }
  | .withFiles fs => { o with files := fs }
  | .withCache fp period idem =>
      { o with cacheObj := some { fncsPresent := fp, expiry := period, idempotency := idem } }

/-- The options struct after `// Apply options`. -/
def applyOptions (opts : List TReqOption) : ReqOptions :=
  opts.foldl applyOption ReqOptions.init

/-- An endpooint URL as `http.NewRequest` parses it: a path and the query
parameters already present in the URL string.  URL-string parsing itself is
`net/url` standard-library behaviour outside this repository and is not
remodelled; the claims never exercise a malformed endpoint or method, so
request construction from a pre-parsed URL is total here. -/
structure URL where
  path : String
  query : List (String × String)
deriving DecidableEq

/-- The constructed `*http.Request`, with its URL already carrying the
encoded `RawQuery` that `prepareRequest` installs. -/
structure HttpReq where
  method : String
  path : String
  rawQuery : String
  headers : List (String × String)
  body : Option String

/-- The client handle (`easyRequest`).  The `http.Client` value and the
`logger` are external collaborators: the transport is a `World` oracle, and
the logger influences only the timing log line, never a result. -/
structure EasyRequest where
  forceCache : Bool
  cacheObj : Option CacheObj
  endpoint : URL
  maxRetry : Nat
  retryWaitMax : Nat

/-- Client-level functional options (`THttpOption`). -/
inductive THttpOption where
  | withRetry (max : Nat)
  | withRetryWaitMax (wait : Nat)

/-- Application of one client option. -/
def applyHttpOption (h : EasyRequest) : THttpOption → EasyRequest
  | .withRetry m => { h with maxRetry := m }
  | .withRetryWaitMax w => { h with retryWaitMax := w }

/-- Constructor `NewHttpClient`: defaults of 3 retries and a 1s (in ns) wait ceiling,
then the supplied options.  The copy of the retry parameters into the
retryable transport configures an external collaborator and has no further
trace in this model. -/
def NewHttpClient (endpoint : URL) (opts : List THttpOption) : EasyRequest :=
  opts.foldl applyHttpOption
    { forceCache := false, cacheObj := none, endpoint := endpoint,
      maxRetry := 3, retryWaitMax := 1000000000 }

/-- The payload-shape error of the `application/x-www-form-urlencoded`
branch. -/
def errFormUrlEncoded : GoError :=
  "payload should be a map[string]string for x-www-form-urlencoded"

/-- The payload-shape error of the `multipart/form-data` branch. -/
def errMultipart : GoError :=
  "payload should be a map[string]string for multipart/form-data"

/-- The payload-shape error of the `application/xml` branch. -/
def errXml : GoError :=
  "payload should be a map[string]interface\x7b\x7d for application/xml"

/-- The `switch options.headers["Content-Type"]` block of `prepareRequest`:
yields the request body together with the (possibly rewritten) header map.
Entered only when a payload or a files map is present; the multipart branch
overwrites the `Content-Type` header with the boundary-carrying value. -/
def encodeBody (fs : FileSystem) (options : ReqOptions) :
    Except GoError (Option String × List (String × String)) :=
  if options.payload.isSome || options.files.isSome then
    if mapIndex options.headers "Content-Type" = "application/x-www-form-urlencoded" then
      match options.payload with
      | some (.strMap formData) => .ok (some (formEncode formData), options.headers)
      | _ => .error errFormUrlEncoded
    else if mapIndex options.headers "Content-Type" = "multipart/form-data" then
      match options.payload with
      | some (.strMap m) =>
          match handleMultipartFormData fs m (options.files.getD []) with
          | .error e => .error e
          | .ok (b, contentType) =>
              .ok (some b, setKey options.headers "Content-Type" contentType)
      | _ => .error errMultipart
    else if mapIndex options.headers "Content-Type" = "application/xml" then
      match options.payload with
      | some (.anyMap m) => .ok (some (handleXMLData m), options.headers)
      | _ => .error errXml
    else
      .ok (some (jsonMarshal options.payload), options.headers)
  else
    .ok (none, options.headers)

/-- Function `prepareRequest`: apply the options, encode the body by content type,
construct the request, add the headers, default `Content-Type` to
`application/json` when absent, append and encode the query parameters, and
— when a cache binding with a non-`nil` capability was supplied — store that
binding on the client handle (the Go receiver `h` is a pointer, so this
mutation outlives the call; the returned `EasyRequest` is its value). -/
def prepareRequest (h : EasyRequest) (fs : FileSystem) (method : String) (endpoint : URL)
    (opts : List TReqOption) : Except GoError (EasyRequest × HttpReq) :=
  let options := applyOptions opts
  match encodeBody fs options with
  | .error e => .error e
  | .ok (body, headers) =>
      let reqHeaders :=
        if (lookupStr headers "Content-Type").isSome then headers
        else headers ++ [("Content-Type", "application/json")]
      let h₁ :=
        match options.cacheObj with
        | some c => if c.fncsPresent then { h with cacheObj := some c } else h
        | none => h
      .ok (h₁,
        { method := method, path := endpoint.path,
          rawQuery := encodeQuery (endpoint.query ++ options.queries),
          headers := reqHeaders, body := body })

/-- The response envelope (`HttpResponse`): `method` and `cacheKey` are the
unexported fields behind the `Method()`/`CacheKey()` accessors. -/
structure HttpResponse where
  method : String
  cacheKey : String
  FromCache : Bool
  StatusCode : Nat
  Body : Option String
deriving DecidableEq

/-- A value held by the external cache: either the `*HttpResponse` this layer
stored, or an arbitrary foreign value. -/
inductive CacheVal where
  | resp (r : HttpResponse)
  | other (j : GoVal)

/-- Binding lookup in a string-keyed `GoVal` map. -/
def lookupGo (m : List (String × GoVal)) (k : String) : Option GoVal :=
  (m.find? (fun p => p.1 = k)).map (fun p => p.2)

/-- Model of `json.Unmarshal` of a foreign cached value into `HttpResponse`: only the
exported fields `FromCache`, `StatusCode`, `Body` can be populated (the model
identifies a base64 `Body` text with the bytes it denotes); on a shape
mismatch `toStruct` discards the error, leaving zero values. -/
def decodeResponseJson (j : GoVal) : HttpResponse :=
  match j with
  | .anyMap m =>
      { method := "", cacheKey := ""
        FromCache := match lookupGo m "FromCache" with | some (.bool b) => b | _ => false
        StatusCode := match lookupGo m "StatusCode" with | some (.int n) => n.toNat | _ => 0
        Body := match lookupGo m "Body" with | some (.str s) => some s | _ => none }
  | _ => { method := "", cacheKey := "", FromCache := false, StatusCode := 0, Body := none }

/-- Function `toStruct[any, *HttpResponse]`: `json.Marshal` of the cached value
followed by `json.Unmarshal` into a fresh `HttpResponse`, with both errors
discarded.  The unexported fields `method` and `cacheKey` are absent from the
JSON encoding of an `HttpResponse`, so they come back as empty strings; the
exported fields survive the round trip. -/
def toStruct : CacheVal → HttpResponse
  | .resp r =>
      { method := "", cacheKey := "", FromCache := r.FromCache,
        StatusCode := r.StatusCode, Body := r.Body }
  | .other j => decodeResponseJson j

/-- The transport's view of one dispatched request: the response status code
and the outcome of `io.ReadAll` on its body. -/
structure TransportResp where
  statusCode : Nat
  bodyRead : Except GoError String

/-- The external collaborators of one execution: the cache capability's
`Get` and `Set` and the retrying transport's `Do`. -/
structure World where
  cacheGet : String → Except GoError CacheVal
  cacheSet : String → CacheVal → Nat → Except GoError CacheVal
  transport : HttpReq → Except GoError TransportResp

/-- The calls `executeRequest` makes on its collaborators: cache `Get` keys,
number of transport `Do` invocations, and cache `Set` stores as
(key, value, ttl). -/
structure Effects where
  getCalls : List String
  doCalls : Nat
  setCalls : List (String × CacheVal × Nat)

/-- The outcome of `executeRequest`: the Go pair `(*HttpResponse, error)` —
both sides can be non-`nil` at once — plus the effect trace. -/
structure ExecResult where
  resp : Option HttpResponse
  err : Option GoError
  effects : Effects

/-- The cache key `fmt.Sprintf("%s_%s_%s", method, idempotency,
fmt.Sprintf("%s?%s", path, rawQuery))`. -/
def cacheKeyOf (method idempotency path rawQuery : String) : String :=
  method ++ "_" ++ idempotency ++ "_" ++ (path ++ "?" ++ rawQuery)

/-- The guard `h.cacheObj != nil && h.cacheObj.fncs != nil`, which
`executeRequest` evaluates both before the lookup and before the store. -/
def activeCache (h : EasyRequest) : Option CacheObj :=
  match h.cacheObj with
  | some c => if c.fncsPresent then some c else none
  | none => none

/-- The post-lookup tail of `executeRequest`: dispatch through the transport,
read the body, and on a 200/201 response with an active cache binding store
the envelope under the computed key.  The result of `Set` is assigned to a
dead variable and the function returns `(response, nil)` regardless. -/
def dispatchAndStore (c? : Option CacheObj) (w : World) (req : HttpReq)
    (gets : List String) : ExecResult :=
  match w.transport req with
  | .error e =>
      { resp := none, err := some e,
        effects := { getCalls := gets, doCalls := 1, setCalls := [] } }
  | .ok tr =>
      match tr.bodyRead with
      | .error e =>
          { resp := some { method := req.method, cacheKey := "", FromCache := false,
                           StatusCode := tr.statusCode, Body := none },
            err := some e,
            effects := { getCalls := gets, doCalls := 1, setCalls := [] } }
      | .ok body =>
          let response : HttpResponse :=
            { method := req.method, cacheKey := "", FromCache := false,
              StatusCode := tr.statusCode, Body := some body }
          match c? with
          | some c =>
              if tr.statusCode = 200 ∨ tr.statusCode = 201 then
                let stored : HttpResponse :=
                  { response with
                    FromCache := false
                    cacheKey := cacheKeyOf req.method c.idempotency req.path req.rawQuery }
                { resp := some stored, err := none,
                  effects := { getCalls := gets, doCalls := 1,
                               setCalls := [(stored.cacheKey, CacheVal.resp stored, c.expiry)] } }
              else
                { resp := some response, err := none,
                  effects := { getCalls := gets, doCalls := 1, setCalls := [] } }
          | none =>
              { resp := some response, err := none,
                effects := { getCalls := gets, doCalls := 1, setCalls := [] } }

/-- Function `executeRequest`: with an active cache binding, compute the key and try
`Get`; a hit runs the cached value through `toStruct`, overwrites its
`cacheKey` and `FromCache` fields and returns without dispatching; a `Get`
error (hit failure of any kind) falls through to dispatch. -/
def executeRequest (h : EasyRequest) (w : World) (req : HttpReq) : ExecResult :=
  match activeCache h with
  | some c =>
      match w.cacheGet (cacheKeyOf req.method c.idempotency req.path req.rawQuery) with
      | .ok cached =>
          { resp := some { toStruct cached with
              cacheKey := cacheKeyOf req.method c.idempotency req.path req.rawQuery
              FromCache := true },
            err := none,
            effects := { getCalls := [cacheKeyOf req.method c.idempotency req.path req.rawQuery],
                         doCalls := 0, setCalls := [] } }
      | .error _ =>
          dispatchAndStore (some c) w req
            [cacheKeyOf req.method c.idempotency req.path req.rawQuery]
  | none => dispatchAndStore none w req []

/-- The shared body of `Get`/`Post`/`Custom`: prepare against the client's
endpoint, then execute; a preparation error returns `(nil, err)` with the
client handle unchanged and no collaborator touched. -/
def customCall (h : EasyRequest) (fs : FileSystem) (w : World) (method : String)
    (opts : List TReqOption) : EasyRequest × ExecResult :=
  match prepareRequest h fs method h.endpoint opts with
  | .error e =>
      (h, { resp := none, err := some e,
            effects := { getCalls := [], doCalls := 0, setCalls := [] } })
  | .ok (h₁, req) => (h₁, executeRequest h₁ w req)

/-- Method `Get`. -/
def GetCall (h : EasyRequest) (fs : FileSystem) (w : World)
    (opts : List TReqOption) : EasyRequest × ExecResult :=
  customCall h fs w "GET" opts

/-- Method `Post`. -/
def PostCall (h : EasyRequest) (fs : FileSystem) (w : World)
    (opts : List TReqOption) : EasyRequest × ExecResult :=
  customCall h fs w "POST" opts

/-- The accessor `Method()`. -/
def HttpResponse.MethodAccessor (r : HttpResponse) : String := r.method

/-- The accessor `CacheKey()`. -/
def HttpResponse.CacheKeyAccessor (r : HttpResponse) : String := r.cacheKey

/-! ### Concrete fixtures used by witnesses and counterexamples -/

/-- A cache binding with a live capability, a 60ns ttl and tag `tag`. -/
def fixC : CacheObj := { fncsPresent := true, expiry := 60, idempotency := "tag" }

/-- Endpoint `/p` with no query in the URL string. -/
def fixURL : URL := { path := "/p", query := [] }

/-- A client that has been handed the binding `fixC`. -/
def fixH : EasyRequest :=
  { forceCache := false, cacheObj := some fixC, endpoint := fixURL,
    maxRetry := 3, retryWaitMax := 1000000000 }

/-- A freshly constructed client, never handed a binding. -/
def fixH0 : EasyRequest := NewHttpClient fixURL []

/-- A prepared GET request for `/p?a=1`. -/
def fixReq : HttpReq :=
  { method := "GET", path := "/p", rawQuery := "a=1", headers := [], body := none }

/-- The cache key `executeRequest` computes for `fixReq` under `fixC`. -/
def fixKey : String := "GET_tag_/p?a=1"

/-- The envelope a 200-response miss on `fixReq` stores. -/
def fixR : HttpResponse :=
  { method := "GET", cacheKey := fixKey, FromCache := false,
    StatusCode := 200, Body := some "hello" }

/-- A world whose cache always misses, whose `Set` always fails, and whose
transport answers 200 with body `hello`. -/
def fixWMiss : World :=
  { cacheGet := fun _ => .error "missing"
    cacheSet := fun _ _ _ => .error "cache backend down"
    transport := fun _ => .ok { statusCode := 200, bodyRead := .ok "hello" } }

/-- A world whose cache always hits with the stored envelope `fixR`. -/
def fixWHit : World :=
  { cacheGet := fun _ => .ok (CacheVal.resp fixR)
    cacheSet := fun _ _ _ => .ok (CacheVal.other (GoVal.str ""))
    transport := fun _ => .error "transport must not be reached" }

/-- A world answering 404 with body `nope`, cache always missing. -/
def fixW404 : World :=
  { cacheGet := fun _ => .error "missing"
    cacheSet := fun _ _ _ => .error "cache backend down"
    transport := fun _ => .ok { statusCode := 404, bodyRead := .ok "nope" } }

/-- A world whose transport answers 200 but whose body read fails. -/
def fixWReadFail : World :=
  { cacheGet := fun _ => .error "missing"
    cacheSet := fun _ _ _ => .error "cache backend down"
    transport := fun _ => .ok { statusCode := 200, bodyRead := .error "unexpected EOF" } }

/-- A file system on which every open fails. -/
def fixFs : FileSystem := fun _ => .error "no such file"

/-! ### Helper lemmas -/

lemma activeCache_some (h : EasyRequest) (c : CacheObj) (hc : h.cacheObj = some c)
    (hf : c.fncsPresent = true) : activeCache h = some c := by
  unfold activeCache
  rw [hc]
  simp [hf]

lemma activeCache_none (h : EasyRequest) (hc : h.cacheObj = none) : activeCache h = none := by
  unfold activeCache
  rw [hc]

lemma dispatchAndStore_getCalls (c? : Option CacheObj) (w : World) (req : HttpReq)
    (gets : List String) : (dispatchAndStore c? w req gets).effects.getCalls = gets := by
  unfold dispatchAndStore
  rcases htr : w.transport req with e | tr
  · rfl
  · dsimp only
    rcases hrd : tr.bodyRead with e | body
    · rfl
    · dsimp only
      rcases c? with _ | c
      · rfl
      · dsimp only
        by_cases hs : tr.statusCode = 200 ∨ tr.statusCode = 201
        · rw [if_pos hs]
        · rw [if_neg hs]

lemma dispatchAndStore_setCalls_key (c : CacheObj) (w : World) (req : HttpReq)
    (gets : List String) :
    ∀ e ∈ (dispatchAndStore (some c) w req gets).effects.setCalls,
      e.1 = cacheKeyOf req.method c.idempotency req.path req.rawQuery := by
  unfold dispatchAndStore
  rcases htr : w.transport req with e | tr
  · simp
  · dsimp only
    rcases hrd : tr.bodyRead with e | body
    · simp
    · dsimp only
      by_cases hs : tr.statusCode = 200 ∨ tr.statusCode = 201
      · rw [if_pos hs]
        simp
      · rw [if_neg hs]
        simp

lemma executeRequest_getCalls_active (h : EasyRequest) (w : World) (req : HttpReq)
    (c : CacheObj) (hc : h.cacheObj = some c) (hf : c.fncsPresent = true) :
    (executeRequest h w req).effects.getCalls
      = [cacheKeyOf req.method c.idempotency req.path req.rawQuery] := by
  unfold executeRequest
  rw [activeCache_some h c hc hf]
  dsimp only
  rcases hget : w.cacheGet (cacheKeyOf req.method c.idempotency req.path req.rawQuery)
    with e | cached
  · exact dispatchAndStore_getCalls _ w req _
  · rfl

lemma executeRequest_cacheObj_none (h : EasyRequest) (w : World) (req : HttpReq)
    (hc : h.cacheObj = none) : executeRequest h w req = dispatchAndStore none w req [] := by
  unfold executeRequest
  rw [activeCache_none h hc]

lemma dispatchAndStore_none_setCalls (w : World) (req : HttpReq) (gets : List String) :
    (dispatchAndStore none w req gets).effects.setCalls = [] := by
  unfold dispatchAndStore
  rcases htr : w.transport req with e | tr
  · rfl
  · dsimp only
    rcases hrd : tr.bodyRead with e | body <;> rfl

lemma dispatchAndStore_none_resp_cacheKey (w : World) (req : HttpReq) (gets : List String) :
    ∀ r, (dispatchAndStore none w req gets).resp = some r → r.CacheKeyAccessor = "" := by
  unfold dispatchAndStore
  rcases htr : w.transport req with e | tr
  · intro r hr
    exact absurd hr (by simp)
  · dsimp only
    rcases hrd : tr.bodyRead with e | body <;>
      · intro r hr
        simp only [Option.some.injEq] at hr
        subst hr
        rfl

lemma foldl_applyOption_cacheObj (opts : List TReqOption) (o : ReqOptions)
    (hall : opts.all (fun x => ! x.isCacheOpt) = true) :
    (opts.foldl applyOption o).cacheObj = o.cacheObj := by
  induction opts generalizing o with
  | nil => rfl
  | cons a rest ih =>
    simp only [List.all_cons, Bool.and_eq_true] at hall
    obtain ⟨ha, hrest⟩ := hall
    rw [List.foldl_cons, ih _ hrest]
    cases a with
    | withQueries qs => rfl
    | withHeaders hs => rfl
    | withPayload p => rfl
    | withFiles fs => rfl
    | withCache fp per idem => exact absurd ha (by simp [TReqOption.isCacheOpt])

lemma prepareRequest_cacheObj (h : EasyRequest) (fs : FileSystem) (m : String) (u : URL)
    (opts : List TReqOption) (h₁ : EasyRequest) (req : HttpReq)
    (hp : prepareRequest h fs m u opts = .ok (h₁, req)) :
    h₁.cacheObj = (match (applyOptions opts).cacheObj with
                   | some c => if c.fncsPresent then some c else h.cacheObj
                   | none => h.cacheObj) := by
  unfold prepareRequest at hp
  dsimp only at hp
  rcases heb : encodeBody fs (applyOptions opts) with e | pair
  · rw [heb] at hp
    exact absurd hp (by simp)
  · rw [heb] at hp
    dsimp only at hp
    rcases hco : (applyOptions opts).cacheObj with _ | c
    · rw [hco] at hp
      dsimp only at hp
      simp only [Except.ok.injEq, Prod.mk.injEq] at hp
      rw [← hp.1]
    · rw [hco] at hp
      dsimp only at hp
      dsimp only
      by_cases hfp : c.fncsPresent = true
      · rw [if_pos hfp] at hp
        rw [if_pos hfp]
        simp only [Except.ok.injEq, Prod.mk.injEq] at hp
        rw [← hp.1]
      · rw [if_neg hfp] at hp
        rw [if_neg hfp]
        simp only [Except.ok.injEq, Prod.mk.injEq] at hp
        rw [← hp.1]

/-! ### C1 — a cache hit short-circuits the transport -/

/-- C1: with an attached cache binding whose `Get` on the computed key
succeeds, `executeRequest` returns an envelope marked `FromCache = true`
carrying the computed cache key, with a `nil` error, and the transport's `Do`
is never invoked on that execution. -/
theorem cache_hit_short_circuits (h : EasyRequest) (w : World) (req : HttpReq)
    (c : CacheObj) (cached : CacheVal)
    (hc : h.cacheObj = some c) (hf : c.fncsPresent = true)
    (hget : w.cacheGet (cacheKeyOf req.method c.idempotency req.path req.rawQuery)
              = .ok cached) :
    ∃ r, (executeRequest h w req).resp = some r ∧
      r.FromCache = true ∧
      r.CacheKeyAccessor = cacheKeyOf req.method c.idempotency req.path req.rawQuery ∧
      (executeRequest h w req).err = none ∧
      (executeRequest h w req).effects.doCalls = 0 := by
  unfold executeRequest
  rw [activeCache_some h c hc hf]
  dsimp only
  rw [hget]
  exact ⟨_, rfl, rfl, rfl, rfl, rfl⟩

/-- Witness for C1 at `fixH`, `fixWHit`, `fixReq`. -/
theorem cache_hit_short_circuits_witness :
    fixH.cacheObj = some fixC ∧ fixC.fncsPresent = true ∧
    fixWHit.cacheGet (cacheKeyOf fixReq.method fixC.idempotency fixReq.path fixReq.rawQuery)
        = .ok (CacheVal.resp fixR) ∧
    (∃ r, (executeRequest fixH fixWHit fixReq).resp = some r ∧
      r.FromCache = true ∧
      r.CacheKeyAccessor
        = cacheKeyOf fixReq.method fixC.idempotency fixReq.path fixReq.rawQuery ∧
      (executeRequest fixH fixWHit fixReq).err = none ∧
      (executeRequest fixH fixWHit fixReq).effects.doCalls = 0) :=
  ⟨rfl, rfl, rfl,
    cache_hit_short_circuits fixH fixWHit fixReq fixC (CacheVal.resp fixR) rfl rfl rfl⟩

/-! ### C2 — the cache key formula, used for lookup and store alike -/

/-- C2: under an attached binding with tag `t`, the key used for the cache
lookup is exactly `method ++ "_" ++ t ++ "_" ++ path ++ "?" ++ rawQuery`,
every store performed uses that same key, and the formula is a pure function
of those four strings (determinism). -/
theorem cache_key_formula (h : EasyRequest) (w : World) (req : HttpReq) (c : CacheObj)
    (hc : h.cacheObj = some c) (hf : c.fncsPresent = true) :
    cacheKeyOf req.method c.idempotency req.path req.rawQuery
        = req.method ++ "_" ++ c.idempotency ++ "_" ++ (req.path ++ "?" ++ req.rawQuery) ∧
    (executeRequest h w req).effects.getCalls
        = [cacheKeyOf req.method c.idempotency req.path req.rawQuery] ∧
    ∀ e ∈ (executeRequest h w req).effects.setCalls,
      e.1 = cacheKeyOf req.method c.idempotency req.path req.rawQuery := by
  refine ⟨rfl, ?_, ?_⟩ <;>
    · unfold executeRequest
      rw [activeCache_some h c hc hf]
      dsimp only
      rcases hget : w.cacheGet (cacheKeyOf req.method c.idempotency req.path req.rawQuery)
        with e | cached
      · first
        | exact dispatchAndStore_getCalls _ w req _
        | exact dispatchAndStore_setCalls_key c w req _
      · simp

/-- Witness for C2 at `fixH`, `fixWMiss`, `fixReq`. -/
theorem cache_key_formula_witness :
    fixH.cacheObj = some fixC ∧ fixC.fncsPresent = true ∧
    (cacheKeyOf fixReq.method fixC.idempotency fixReq.path fixReq.rawQuery
        = fixReq.method ++ "_" ++ fixC.idempotency ++ "_"
            ++ (fixReq.path ++ "?" ++ fixReq.rawQuery) ∧
     (executeRequest fixH fixWMiss fixReq).effects.getCalls
        = [cacheKeyOf fixReq.method fixC.idempotency fixReq.path fixReq.rawQuery] ∧
     ∀ e ∈ (executeRequest fixH fixWMiss fixReq).effects.setCalls,
       e.1 = cacheKeyOf fixReq.method fixC.idempotency fixReq.path fixReq.rawQuery) :=
  ⟨rfl, rfl, cache_key_formula fixH fixWMiss fixReq fixC rfl rfl⟩

/-! ### C3 — a cache binding is NOT owned by one call: it leaks to later calls -/

/-- The request `prepareRequest` builds for a bare call against `fixURL`. -/
def c3PreparedReq : HttpReq :=
  { method := "GET", path := "/p", rawQuery := "",
    headers := [("Content-Type", "application/json")], body := none }

/-- The second call of the C3 scenario: a fresh client makes one call with a
cache binding, then a second call with no options at all, against a world
whose cache always hits. -/
def c3SecondCall : ExecResult :=
  (customCall (customCall fixH0 fixFs fixWMiss "GET"
      [TReqOption.withCache true 60 "tag"]).1 fixFs fixWHit "GET" []).2

/-- C3 is false on the code: after one call with a cache binding, a second
call on the same client made without any cache binding still consults the
cache (its `Get` is called), and the returned envelope's `CacheKey()` is not
empty — `prepareRequest` stores the binding on the shared client handle and
never clears it. -/
theorem cache_binding_not_shared_counterexample :
    ¬ (c3SecondCall.effects.getCalls = [] ∧
       c3SecondCall.effects.setCalls = [] ∧
       ∀ r, c3SecondCall.resp = some r → r.CacheKeyAccessor = "") := by
  intro hcl
  have h1 : c3SecondCall.effects.getCalls = ["GET_tag_/p?"] := rfl
  rw [hcl.1] at h1
  exact List.noConfusion h1

/-- C3 (amended): a cache binding supplied via `WithCache` is stored on the
client handle and persists: every later call on that client — even one made
without a cache binding — still consults the cache with the key built from
the persisted binding's idempotency tag.  Only a client that has never been
given a binding behaves as unbound: the cache is not consulted, no store is
performed, and the returned envelope's `CacheKey()` accessor yields `""`. -/
theorem cache_binding_persists_on_client (h : EasyRequest) (fs : FileSystem) (m : String)
    (u : URL) (opts : List TReqOption) (c : CacheObj) (h₁ : EasyRequest) (req : HttpReq)
    (hf : c.fncsPresent = true)
    (hopts : (applyOptions opts).cacheObj = some c)
    (hp : prepareRequest h fs m u opts = .ok (h₁, req)) :
    h₁.cacheObj = some c ∧
    (∀ fs₂ m₂ u₂ opts₂ h₂ req₂ w₂,
       opts₂.all (fun o => ! o.isCacheOpt) = true →
       prepareRequest h₁ fs₂ m₂ u₂ opts₂ = .ok (h₂, req₂) →
       (executeRequest h₂ w₂ req₂).effects.getCalls
         = [cacheKeyOf req₂.method c.idempotency req₂.path req₂.rawQuery]) ∧
    (∀ h₀ w₀ req₀, h₀.cacheObj = none →
       (executeRequest h₀ w₀ req₀).effects.getCalls = [] ∧
       (executeRequest h₀ w₀ req₀).effects.setCalls = [] ∧
       ∀ r, (executeRequest h₀ w₀ req₀).resp = some r → r.CacheKeyAccessor = "") := by
  have hco : h₁.cacheObj = some c := by
    rw [prepareRequest_cacheObj h fs m u opts h₁ req hp, hopts]
    dsimp only
    rw [if_pos hf]
  refine ⟨hco, ?_, ?_⟩
  · intro fs₂ m₂ u₂ opts₂ h₂ req₂ w₂ hall hp₂
    have hnone : (applyOptions opts₂).cacheObj = none :=
      foldl_applyOption_cacheObj opts₂ ReqOptions.init hall
    have hco₂ : h₂.cacheObj = some c := by
      rw [prepareRequest_cacheObj h₁ fs₂ m₂ u₂ opts₂ h₂ req₂ hp₂, hnone]
      exact hco
    exact executeRequest_getCalls_active h₂ w₂ req₂ c hco₂ hf
  · intro h₀ w₀ req₀ hnone
    rw [executeRequest_cacheObj_none h₀ w₀ req₀ hnone]
    exact ⟨dispatchAndStore_getCalls none w₀ req₀ [],
           dispatchAndStore_none_setCalls w₀ req₀ [],
           dispatchAndStore_none_resp_cacheKey w₀ req₀ []⟩

/-- Witness for the amended C3 on a fresh client given the binding `fixC`. -/
theorem cache_binding_persists_on_client_witness :
    fixC.fncsPresent = true ∧
    (applyOptions [TReqOption.withCache true 60 "tag"]).cacheObj = some fixC ∧
    prepareRequest fixH0 fixFs "GET" fixURL [TReqOption.withCache true 60 "tag"]
        = .ok (fixH, c3PreparedReq) ∧
    (fixH.cacheObj = some fixC ∧
     (∀ fs₂ m₂ u₂ opts₂ h₂ req₂ w₂,
        opts₂.all (fun o => ! o.isCacheOpt) = true →
        prepareRequest fixH fs₂ m₂ u₂ opts₂ = .ok (h₂, req₂) →
        (executeRequest h₂ w₂ req₂).effects.getCalls
          = [cacheKeyOf req₂.method fixC.idempotency req₂.path req₂.rawQuery]) ∧
     (∀ h₀ w₀ req₀, h₀.cacheObj = none →
        (executeRequest h₀ w₀ req₀).effects.getCalls = [] ∧
        (executeRequest h₀ w₀ req₀).effects.setCalls = [] ∧
        ∀ r, (executeRequest h₀ w₀ req₀).resp = some r → r.CacheKeyAccessor = "")) :=
  ⟨rfl, rfl, rfl,
    cache_binding_persists_on_client fixH0 fixFs "GET" fixURL
      [TReqOption.withCache true 60 "tag"] fixC fixH c3PreparedReq rfl rfl rfl⟩

/-! ### C4, C7, C8 — dispatch, store and error propagation -/

lemma executeRequest_miss (h : EasyRequest) (w : World) (req : HttpReq) (c : CacheObj)
    (e : GoError) (hc : h.cacheObj = some c) (hf : c.fncsPresent = true)
    (hmiss : w.cacheGet (cacheKeyOf req.method c.idempotency req.path req.rawQuery)
        = .error e) :
    executeRequest h w req
      = dispatchAndStore (some c) w req
          [cacheKeyOf req.method c.idempotency req.path req.rawQuery] := by
  unfold executeRequest
  rw [activeCache_some h c hc hf]
  dsimp only
  rw [hmiss]

/-- The envelope `executeRequest` both stores under the computed cache key
and returns on a cacheable (200/201) miss. -/
def storedEnvelope (req : HttpReq) (c : CacheObj) (status : Nat) (body : String) :
    HttpResponse :=
  { method := req.method
    cacheKey := cacheKeyOf req.method c.idempotency req.path req.rawQuery
    FromCache := false
    StatusCode := status
    Body := some body }

lemma dispatchAndStore_ok_ok (c : CacheObj) (w : World) (req : HttpReq) (gets : List String)
    (tr : TransportResp) (body : String)
    (hdo : w.transport req = .ok tr) (hread : tr.bodyRead = .ok body) :
    dispatchAndStore (some c) w req gets =
      (if tr.statusCode = 200 ∨ tr.statusCode = 201 then
        { resp := some (storedEnvelope req c tr.statusCode body)
          err := none
          effects := { getCalls := gets, doCalls := 1,
                       setCalls := [(cacheKeyOf req.method c.idempotency req.path req.rawQuery,
                                     CacheVal.resp (storedEnvelope req c tr.statusCode body),
                                     c.expiry)] } }
      else
        { resp := some { method := req.method, cacheKey := "", FromCache := false,
                         StatusCode := tr.statusCode, Body := some body }
          err := none
          effects := { getCalls := gets, doCalls := 1, setCalls := [] } }) := by
  unfold dispatchAndStore
  rw [hdo]
  dsimp only
  rw [hread]
  rfl

lemma dispatchAndStore_readfail (c? : Option CacheObj) (w : World) (req : HttpReq)
    (gets : List String) (tr : TransportResp) (e : GoError)
    (hdo : w.transport req = .ok tr) (hread : tr.bodyRead = .error e) :
    dispatchAndStore c? w req gets =
      { resp := some { method := req.method, cacheKey := "", FromCache := false,
                       StatusCode := tr.statusCode, Body := none }
        err := some e
        effects := { getCalls := gets, doCalls := 1, setCalls := [] } } := by
  unfold dispatchAndStore
  rw [hdo]
  dsimp only
  rw [hread]

/-- C4: on a cache miss with an attached binding whose transport dispatch and
body read both succeed, a store happens exactly when the status code is 200
or 201; when it happens it is exactly one `Set` under the computed cache key
with the binding's configured ttl; a 404 status yields zero stores. -/
theorem store_iff_success_status (h : EasyRequest) (w : World) (req : HttpReq)
    (c : CacheObj) (e : GoError) (tr : TransportResp) (body : String)
    (hc : h.cacheObj = some c) (hf : c.fncsPresent = true)
    (hmiss : w.cacheGet (cacheKeyOf req.method c.idempotency req.path req.rawQuery)
        = .error e)
    (hdo : w.transport req = .ok tr) (hread : tr.bodyRead = .ok body) :
    ((executeRequest h w req).effects.setCalls ≠ []
        ↔ (tr.statusCode = 200 ∨ tr.statusCode = 201)) ∧
    ((tr.statusCode = 200 ∨ tr.statusCode = 201) →
       (executeRequest h w req).effects.setCalls
         = [(cacheKeyOf req.method c.idempotency req.path req.rawQuery,
             CacheVal.resp (storedEnvelope req c tr.statusCode body),
             c.expiry)]) ∧
    (tr.statusCode = 404 → (executeRequest h w req).effects.setCalls = []) := by
  rw [executeRequest_miss h w req c e hc hf hmiss,
      dispatchAndStore_ok_ok c w req _ tr body hdo hread]
  by_cases hs : tr.statusCode = 200 ∨ tr.statusCode = 201
  · rw [if_pos hs]
    refine ⟨by simp [hs], fun _ => rfl, ?_⟩
    intro h404
    rw [h404] at hs
    rcases hs with h' | h' <;> exact absurd h' (by decide)
  · rw [if_neg hs]
    exact ⟨by simp [hs], fun hcon => absurd hcon hs, fun _ => rfl⟩

/-- Witness for C4 at `fixH`, `fixWMiss` (a 200 world), `fixReq`. -/
theorem store_iff_success_status_witness :
    fixH.cacheObj = some fixC ∧ fixC.fncsPresent = true ∧
    fixWMiss.cacheGet (cacheKeyOf fixReq.method fixC.idempotency fixReq.path fixReq.rawQuery)
        = .error "missing" ∧
    fixWMiss.transport fixReq = .ok { statusCode := 200, bodyRead := .ok "hello" } ∧
    (((executeRequest fixH fixWMiss fixReq).effects.setCalls ≠ []
        ↔ ((200 : Nat) = 200 ∨ (200 : Nat) = 201)) ∧
     (((200 : Nat) = 200 ∨ (200 : Nat) = 201) →
       (executeRequest fixH fixWMiss fixReq).effects.setCalls
         = [(cacheKeyOf fixReq.method fixC.idempotency fixReq.path fixReq.rawQuery,
             CacheVal.resp (storedEnvelope fixReq fixC 200 "hello"),
             fixC.expiry)]) ∧
     ((200 : Nat) = 404 → (executeRequest fixH fixWMiss fixReq).effects.setCalls = [])) :=
  ⟨rfl, rfl, rfl, rfl,
    store_iff_success_status fixH fixWMiss fixReq fixC "missing"
      { statusCode := 200, bodyRead := .ok "hello" } "hello" rfl rfl rfl rfl rfl⟩

/-- C7: when a store is attempted, the outcome of the cache `Set` is
discarded — even a failing `Set` leaves `executeRequest` returning the full
envelope together with a `nil` error. -/
theorem cache_set_failure_swallowed (h : EasyRequest) (w : World) (req : HttpReq)
    (c : CacheObj) (e : GoError) (tr : TransportResp) (body : String) (e₂ : GoError)
    (hc : h.cacheObj = some c) (hf : c.fncsPresent = true)
    (hmiss : w.cacheGet (cacheKeyOf req.method c.idempotency req.path req.rawQuery)
        = .error e)
    (hdo : w.transport req = .ok tr) (hread : tr.bodyRead = .ok body)
    (hstatus : tr.statusCode = 200 ∨ tr.statusCode = 201)
    (hsetfail : w.cacheSet (cacheKeyOf req.method c.idempotency req.path req.rawQuery)
        (CacheVal.resp (storedEnvelope req c tr.statusCode body))
        c.expiry = .error e₂) :
    (executeRequest h w req).err = none ∧
    (executeRequest h w req).resp = some (storedEnvelope req c tr.statusCode body) := by
  rw [executeRequest_miss h w req c e hc hf hmiss,
      dispatchAndStore_ok_ok c w req _ tr body hdo hread, if_pos hstatus]
  exact ⟨rfl, rfl⟩

/-- Witness for C7 at `fixWMiss`, whose `Set` always fails. -/
theorem cache_set_failure_swallowed_witness :
    fixH.cacheObj = some fixC ∧ fixC.fncsPresent = true ∧
    fixWMiss.cacheGet (cacheKeyOf fixReq.method fixC.idempotency fixReq.path fixReq.rawQuery)
        = .error "missing" ∧
    fixWMiss.transport fixReq = .ok { statusCode := 200, bodyRead := .ok "hello" } ∧
    fixWMiss.cacheSet (cacheKeyOf fixReq.method fixC.idempotency fixReq.path fixReq.rawQuery)
        (CacheVal.resp (storedEnvelope fixReq fixC 200 "hello"))
        fixC.expiry = .error "cache backend down" ∧
    ((executeRequest fixH fixWMiss fixReq).err = none ∧
     (executeRequest fixH fixWMiss fixReq).resp
       = some (storedEnvelope fixReq fixC 200 "hello")) :=
  ⟨rfl, rfl, rfl, rfl, rfl,
    cache_set_failure_swallowed fixH fixWMiss fixReq fixC "missing"
      { statusCode := 200, bodyRead := .ok "hello" } "hello" "cache backend down"
      rfl rfl rfl rfl rfl (Or.inl rfl) rfl⟩

/-- C8: when the transport dispatch succeeds but the body read fails (and no
cache hit pre-empted the dispatch), `executeRequest` returns a partially
populated envelope — status code present, body absent — simultaneously with
the read error. -/
theorem body_read_failure_returns_envelope_and_error (h : EasyRequest) (w : World) (req : HttpReq)
    (tr : TransportResp) (e : GoError)
    (hnohit : ∀ c, h.cacheObj = some c → c.fncsPresent = true →
       ∃ e₀, w.cacheGet (cacheKeyOf req.method c.idempotency req.path req.rawQuery)
               = .error e₀)
    (hdo : w.transport req = .ok tr) (hread : tr.bodyRead = .error e) :
    (executeRequest h w req).resp
        = some { method := req.method, cacheKey := "", FromCache := false,
                 StatusCode := tr.statusCode, Body := none } ∧
    (executeRequest h w req).err = some e := by
  rcases hc : h.cacheObj with _ | c
  · rw [executeRequest_cacheObj_none h w req hc,
        dispatchAndStore_readfail none w req [] tr e hdo hread]
    exact ⟨rfl, rfl⟩
  · by_cases hf : c.fncsPresent = true
    · obtain ⟨e₀, hmiss⟩ := hnohit c hc hf
      rw [executeRequest_miss h w req c e₀ hc hf hmiss,
          dispatchAndStore_readfail (some c) w req _ tr e hdo hread]
      exact ⟨rfl, rfl⟩
    · have hac : activeCache h = none := by
        unfold activeCache
        rw [hc]
        dsimp only
        rw [if_neg hf]
      unfold executeRequest
      rw [hac, dispatchAndStore_readfail none w req [] tr e hdo hread]
      exact ⟨rfl, rfl⟩

/-- Witness for C8 at `fixH`, `fixWReadFail`, `fixReq`. -/
theorem body_read_failure_returns_envelope_and_error_witness :
    (∀ c, fixH.cacheObj = some c → c.fncsPresent = true →
       ∃ e₀, fixWReadFail.cacheGet
               (cacheKeyOf fixReq.method c.idempotency fixReq.path fixReq.rawQuery)
               = .error e₀) ∧
    fixWReadFail.transport fixReq
        = .ok { statusCode := 200, bodyRead := .error "unexpected EOF" } ∧
    ((executeRequest fixH fixWReadFail fixReq).resp
        = some { method := fixReq.method, cacheKey := "", FromCache := false,
                 StatusCode := 200, Body := none } ∧
     (executeRequest fixH fixWReadFail fixReq).err = some "unexpected EOF") :=
  ⟨fun _ _ _ => ⟨"missing", rfl⟩, rfl,
    body_read_failure_returns_envelope_and_error fixH fixWReadFail fixReq
      { statusCode := 200, bodyRead := .error "unexpected EOF" } "unexpected EOF"
      (fun _ _ _ => ⟨"missing", rfl⟩) rfl rfl⟩

/-! ### C5 — the store-then-hit round trip loses the method field -/

lemma executeRequest_hit (h : EasyRequest) (w : World) (req : HttpReq) (c : CacheObj)
    (cached : CacheVal) (hc : h.cacheObj = some c) (hf : c.fncsPresent = true)
    (hget : w.cacheGet (cacheKeyOf req.method c.idempotency req.path req.rawQuery)
        = .ok cached) :
    (executeRequest h w req).resp
      = some { toStruct cached with
          cacheKey := cacheKeyOf req.method c.idempotency req.path req.rawQuery
          FromCache := true } := by
  unfold executeRequest
  rw [activeCache_some h c hc hf]
  dsimp only
  rw [hget]

/-- The envelope a hit on `fixKey` returns in the C5 scenario. -/
def c5HitEnvelope : HttpResponse :=
  { method := "", cacheKey := fixKey, FromCache := true,
    StatusCode := 200, Body := some "hello" }

/-- C5 is false on the code: in the concrete store-then-hit scenario the
cache returns exactly the stored envelope `fixR`, yet the hit envelope's
`Method()` is `""` while the stored envelope's was `"GET"` — `toStruct`
round-trips the value through its JSON encoding, which omits the unexported
`method` field. -/
theorem cache_round_trip_counterexample :
    ¬ ((executeRequest fixH fixWMiss fixReq).effects.setCalls
          = [(fixKey, CacheVal.resp fixR, fixC.expiry)] →
       fixWHit.cacheGet fixKey = .ok (CacheVal.resp fixR) →
       ∀ r₂, (executeRequest fixH fixWHit fixReq).resp = some r₂ →
         r₂.StatusCode = fixR.StatusCode ∧ r₂.Body = fixR.Body ∧
         r₂.MethodAccessor = fixR.MethodAccessor ∧
         r₂.CacheKeyAccessor = fixR.CacheKeyAccessor) := by
  intro hcl
  have h₂ := hcl rfl rfl c5HitEnvelope rfl
  exact absurd h₂.2.2.1 (by decide)

/-- C5 (amended): assuming the cache capability returns exactly the value
that was stored, a later identical call that hits the cache returns an
envelope whose status code, body, and cache key equal those of the stored
envelope (and which is marked `FromCache = true`); the method is NOT
reconstructed — the hit envelope's `Method()` is the empty string, because
the generic JSON round trip in `toStruct` drops the unexported `method`
field. -/
theorem cache_round_trip_amended (h : EasyRequest) (w₁ w₂ : World) (req : HttpReq)
    (c : CacheObj) (e : GoError) (tr : TransportResp) (body : String) (r₁ : HttpResponse)
    (hc : h.cacheObj = some c) (hf : c.fncsPresent = true)
    (hmiss : w₁.cacheGet (cacheKeyOf req.method c.idempotency req.path req.rawQuery)
        = .error e)
    (hdo : w₁.transport req = .ok tr) (hread : tr.bodyRead = .ok body)
    (hstatus : tr.statusCode = 200 ∨ tr.statusCode = 201)
    (hstore : (executeRequest h w₁ req).effects.setCalls
        = [(cacheKeyOf req.method c.idempotency req.path req.rawQuery,
            CacheVal.resp r₁, c.expiry)])
    (hhit : w₂.cacheGet (cacheKeyOf req.method c.idempotency req.path req.rawQuery)
        = .ok (CacheVal.resp r₁)) :
    ∃ r₂, (executeRequest h w₂ req).resp = some r₂ ∧
      r₂.StatusCode = r₁.StatusCode ∧ r₂.Body = r₁.Body ∧
      r₂.CacheKeyAccessor = r₁.CacheKeyAccessor ∧
      r₂.FromCache = true ∧ r₂.MethodAccessor = "" := by
  have hse : (executeRequest h w₁ req).effects.setCalls
      = [(cacheKeyOf req.method c.idempotency req.path req.rawQuery,
          CacheVal.resp (storedEnvelope req c tr.statusCode body), c.expiry)] := by
    rw [executeRequest_miss h w₁ req c e hc hf hmiss,
        dispatchAndStore_ok_ok c w₁ req _ tr body hdo hread, if_pos hstatus]
  rw [hse] at hstore
  simp only [List.cons.injEq, Prod.mk.injEq, CacheVal.resp.injEq, and_true, true_and]
    at hstore
  have hr₁ : r₁ = storedEnvelope req c tr.statusCode body := hstore.symm
  subst hr₁
  exact ⟨_, executeRequest_hit h w₂ req c
    (CacheVal.resp (storedEnvelope req c tr.statusCode body)) hc hf hhit,
    rfl, rfl, rfl, rfl, rfl⟩

/-- Witness for the amended C5 on the concrete store-then-hit scenario. -/
theorem cache_round_trip_amended_witness :
    fixH.cacheObj = some fixC ∧ fixC.fncsPresent = true ∧
    fixWMiss.cacheGet (cacheKeyOf fixReq.method fixC.idempotency fixReq.path fixReq.rawQuery)
        = .error "missing" ∧
    fixWMiss.transport fixReq = .ok { statusCode := 200, bodyRead := .ok "hello" } ∧
    (executeRequest fixH fixWMiss fixReq).effects.setCalls
        = [(cacheKeyOf fixReq.method fixC.idempotency fixReq.path fixReq.rawQuery,
            CacheVal.resp fixR, fixC.expiry)] ∧
    fixWHit.cacheGet (cacheKeyOf fixReq.method fixC.idempotency fixReq.path fixReq.rawQuery)
        = .ok (CacheVal.resp fixR) ∧
    (∃ r₂, (executeRequest fixH fixWHit fixReq).resp = some r₂ ∧
      r₂.StatusCode = fixR.StatusCode ∧ r₂.Body = fixR.Body ∧
      r₂.CacheKeyAccessor = fixR.CacheKeyAccessor ∧
      r₂.FromCache = true ∧ r₂.MethodAccessor = "") :=
  ⟨rfl, rfl, rfl, rfl, rfl, rfl,
    cache_round_trip_amended fixH fixWMiss fixWHit fixReq fixC "missing"
      { statusCode := 200, bodyRead := .ok "hello" } "hello" fixR
      rfl rfl rfl rfl rfl (Or.inl rfl) rfl rfl⟩

/-! ### C6, C9, C10 — content-type driven encoding in prepareRequest -/

lemma encodeBody_urlenc_mismatch (fs : FileSystem) (options : ReqOptions) (p : GoVal)
    (hpayload : options.payload = some p)
    (hct : mapIndex options.headers "Content-Type" = "application/x-www-form-urlencoded")
    (hshape : ∀ l, p ≠ GoVal.strMap l) :
    encodeBody fs options = .error errFormUrlEncoded := by
  unfold encodeBody
  rw [hpayload, hct]
  simp only [Option.isSome_some, Bool.true_or, if_true]
  cases p with
  | strMap l => exact absurd rfl (hshape l)
  | str s => rfl
  | int n => rfl
  | bool b => rfl
  | anyMap mm => rfl

/-- C6: a call that declares `Content-Type: application/x-www-form-urlencoded`
and supplies a payload that is not a `map[string]string` fails with the
type-mismatch error before any request is constructed: the call returns
`(nil, err)` with the client untouched and no collaborator — cache or
transport — is ever invoked. -/
theorem form_urlencoded_shape_mismatch (h : EasyRequest) (fs : FileSystem) (w : World)
    (m : String) (opts : List TReqOption) (p : GoVal)
    (hpayload : (applyOptions opts).payload = some p)
    (hct : mapIndex (applyOptions opts).headers "Content-Type"
        = "application/x-www-form-urlencoded")
    (hshape : ∀ l, p ≠ GoVal.strMap l) :
    (customCall h fs w m opts).2.err = some errFormUrlEncoded ∧
    (customCall h fs w m opts).2.resp = none ∧
    (customCall h fs w m opts).2.effects.doCalls = 0 ∧
    (customCall h fs w m opts).2.effects.getCalls = [] ∧
    (customCall h fs w m opts).2.effects.setCalls = [] ∧
    (customCall h fs w m opts).1 = h := by
  have hprep : prepareRequest h fs m h.endpoint opts = .error errFormUrlEncoded := by
    unfold prepareRequest
    dsimp only
    rw [encodeBody_urlenc_mismatch fs (applyOptions opts) p hpayload hct hshape]
  unfold customCall
  rw [hprep]
  exact ⟨rfl, rfl, rfl, rfl, rfl, rfl⟩

/-- Witness for C6 with a plain string payload. -/
theorem form_urlencoded_shape_mismatch_witness :
    (applyOptions [TReqOption.withHeaders
        [("Content-Type", "application/x-www-form-urlencoded")],
      TReqOption.withPayload (some (GoVal.str "oops"))]).payload
        = some (GoVal.str "oops") ∧
    mapIndex (applyOptions [TReqOption.withHeaders
        [("Content-Type", "application/x-www-form-urlencoded")],
      TReqOption.withPayload (some (GoVal.str "oops"))]).headers "Content-Type"
        = "application/x-www-form-urlencoded" ∧
    ((customCall fixH0 fixFs fixWMiss "GET"
        [TReqOption.withHeaders [("Content-Type", "application/x-www-form-urlencoded")],
         TReqOption.withPayload (some (GoVal.str "oops"))]).2.err
           = some errFormUrlEncoded ∧
     (customCall fixH0 fixFs fixWMiss "GET"
        [TReqOption.withHeaders [("Content-Type", "application/x-www-form-urlencoded")],
         TReqOption.withPayload (some (GoVal.str "oops"))]).2.resp = none ∧
     (customCall fixH0 fixFs fixWMiss "GET"
        [TReqOption.withHeaders [("Content-Type", "application/x-www-form-urlencoded")],
         TReqOption.withPayload (some (GoVal.str "oops"))]).2.effects.doCalls = 0 ∧
     (customCall fixH0 fixFs fixWMiss "GET"
        [TReqOption.withHeaders [("Content-Type", "application/x-www-form-urlencoded")],
         TReqOption.withPayload (some (GoVal.str "oops"))]).2.effects.getCalls = [] ∧
     (customCall fixH0 fixFs fixWMiss "GET"
        [TReqOption.withHeaders [("Content-Type", "application/x-www-form-urlencoded")],
         TReqOption.withPayload (some (GoVal.str "oops"))]).2.effects.setCalls = [] ∧
     (customCall fixH0 fixFs fixWMiss "GET"
        [TReqOption.withHeaders [("Content-Type", "application/x-www-form-urlencoded")],
         TReqOption.withPayload (some (GoVal.str "oops"))]).1 = fixH0) :=
  ⟨rfl, rfl,
    form_urlencoded_shape_mismatch fixH0 fixFs fixWMiss "GET"
      [TReqOption.withHeaders [("Content-Type", "application/x-www-form-urlencoded")],
       TReqOption.withPayload (some (GoVal.str "oops"))]
      (GoVal.str "oops") rfl rfl (fun _ hcon => GoVal.noConfusion hcon)⟩

lemma encodeBody_multipart_nil_payload (fs : FileSystem) (options : ReqOptions)
    (files : List (String × String))
    (hfiles : options.files = some files) (hpayload : options.payload = none)
    (hct : mapIndex options.headers "Content-Type" = "multipart/form-data") :
    encodeBody fs options = .error errMultipart := by
  unfold encodeBody
  rw [hpayload, hfiles, hct]
  simp only [Option.isSome_some, Option.isSome_none, Bool.false_or, if_true]
  rw [if_neg (by decide)]

/-- C10: a multipart call that supplies files via `WithFiles` but no payload
fails with the multipart shape-mismatch error and no request is issued: the
call returns `(nil, err)`, the transport is never invoked, and no file-only
multipart body is ever produced. -/
theorem multipart_files_without_payload_rejected (h : EasyRequest) (fs : FileSystem)
    (w : World) (m : String) (opts : List TReqOption) (files : List (String × String))
    (hfiles : (applyOptions opts).files = some files)
    (hpayload : (applyOptions opts).payload = none)
    (hct : mapIndex (applyOptions opts).headers "Content-Type" = "multipart/form-data") :
    (customCall h fs w m opts).2.err = some errMultipart ∧
    (customCall h fs w m opts).2.resp = none ∧
    (customCall h fs w m opts).2.effects.doCalls = 0 ∧
    (customCall h fs w m opts).2.effects.getCalls = [] ∧
    (customCall h fs w m opts).2.effects.setCalls = [] ∧
    (customCall h fs w m opts).1 = h := by
  have hprep : prepareRequest h fs m h.endpoint opts = .error errMultipart := by
    unfold prepareRequest
    dsimp only
    rw [encodeBody_multipart_nil_payload fs (applyOptions opts) files hfiles hpayload hct]
  unfold customCall
  rw [hprep]
  exact ⟨rfl, rfl, rfl, rfl, rfl, rfl⟩

/-- Witness for C10 with one attached file and no payload. -/
theorem multipart_files_without_payload_rejected_witness :
    (applyOptions [TReqOption.withHeaders [("Content-Type", "multipart/form-data")],
        TReqOption.withFiles (some [("files", "example/img.png")])]).files
          = some [("files", "example/img.png")] ∧
    (applyOptions [TReqOption.withHeaders [("Content-Type", "multipart/form-data")],
        TReqOption.withFiles (some [("files", "example/img.png")])]).payload = none ∧
    ((customCall fixH0 fixFs fixWMiss "POST"
        [TReqOption.withHeaders [("Content-Type", "multipart/form-data")],
         TReqOption.withFiles (some [("files", "example/img.png")])]).2.err
           = some errMultipart ∧
     (customCall fixH0 fixFs fixWMiss "POST"
        [TReqOption.withHeaders [("Content-Type", "multipart/form-data")],
         TReqOption.withFiles (some [("files", "example/img.png")])]).2.resp = none ∧
     (customCall fixH0 fixFs fixWMiss "POST"
        [TReqOption.withHeaders [("Content-Type", "multipart/form-data")],
         TReqOption.withFiles (some [("files", "example/img.png")])]).2.effects.doCalls = 0 ∧
     (customCall fixH0 fixFs fixWMiss "POST"
        [TReqOption.withHeaders [("Content-Type", "multipart/form-data")],
         TReqOption.withFiles (some [("files", "example/img.png")])]).2.effects.getCalls = [] ∧
     (customCall fixH0 fixFs fixWMiss "POST"
        [TReqOption.withHeaders [("Content-Type", "multipart/form-data")],
         TReqOption.withFiles (some [("files", "example/img.png")])]).2.effects.setCalls = [] ∧
     (customCall fixH0 fixFs fixWMiss "POST"
        [TReqOption.withHeaders [("Content-Type", "multipart/form-data")],
         TReqOption.withFiles (some [("files", "example/img.png")])]).1 = fixH0) :=
  ⟨rfl, rfl,
    multipart_files_without_payload_rejected fixH0 fixFs fixWMiss "POST"
      [TReqOption.withHeaders [("Content-Type", "multipart/form-data")],
       TReqOption.withFiles (some [("files", "example/img.png")])]
      [("files", "example/img.png")] rfl rfl rfl⟩

lemma lookupStr_append_right (m : List (String × String)) (k v : String)
    (hm : lookupStr m k = none) : lookupStr (m ++ [(k, v)]) k = some v := by
  induction m with
  | nil => simp [lookupStr]
  | cons a rest ih =>
      by_cases hk : a.1 = k
      · exfalso
        simp [lookupStr, List.find?_cons, hk] at hm
      · simp only [lookupStr, List.cons_append, List.find?_cons, decide_eq_false hk]
          at hm ⊢
        exact ih hm

lemma encodeBody_default (fs : FileSystem) (options : ReqOptions)
    (hct : mapIndex options.headers "Content-Type" = ""
         ∨ mapIndex options.headers "Content-Type" = "application/json") :
    encodeBody fs options
      = .ok ((if options.payload.isSome || options.files.isSome
              then some (jsonMarshal options.payload) else none), options.headers) := by
  unfold encodeBody
  by_cases hp : (options.payload.isSome || options.files.isSome) = true
  · rcases hct with hct | hct <;>
      · rw [hct] at *
        simp only [hp, if_true]
        rw [if_neg (by decide), if_neg (by decide), if_neg (by decide)]
  · have hp' : (options.payload.isSome || options.files.isSome) = false :=
      Bool.not_eq_true _ ▸ Bool.of_not_eq_true hp
    simp only [hp', Bool.false_eq_true, if_false]

/-- C9: when the caller sets no `Content-Type` header (so no encoder branch
runs and none could set one), the constructed request carries
`Content-Type: application/json`; and any present payload whose declared
content type is unset or `application/json` is encoded as its JSON
marshaling. -/
theorem default_content_type_json (h : EasyRequest) (fs : FileSystem) (m : String) (u : URL)
    (opts : List TReqOption)
    (hct : lookupStr (applyOptions opts).headers "Content-Type" = none
         ∨ lookupStr (applyOptions opts).headers "Content-Type" = some "application/json") :
    ∃ h₁ req, prepareRequest h fs m u opts = .ok (h₁, req) ∧
      (lookupStr (applyOptions opts).headers "Content-Type" = none →
         lookupStr req.headers "Content-Type" = some "application/json") ∧
      (∀ p, (applyOptions opts).payload = some p → req.body = some (jsonMarshalVal p)) := by
  have hmi : mapIndex (applyOptions opts).headers "Content-Type" = ""
           ∨ mapIndex (applyOptions opts).headers "Content-Type" = "application/json" := by
    rcases hct with hct | hct
    · exact Or.inl (by rw [mapIndex, hct]; rfl)
    · exact Or.inr (by rw [mapIndex, hct]; rfl)
  refine ⟨(match (applyOptions opts).cacheObj with
           | some c => if c.fncsPresent then { h with cacheObj := some c } else h
           | none => h),
          { method := m
            path := u.path
            rawQuery := encodeQuery (u.query ++ (applyOptions opts).queries)
            headers := (if (lookupStr (applyOptions opts).headers "Content-Type").isSome
                        then (applyOptions opts).headers
                        else (applyOptions opts).headers
                               ++ [("Content-Type", "application/json")])
            body := (if (applyOptions opts).payload.isSome
                        || (applyOptions opts).files.isSome
                     then some (jsonMarshal (applyOptions opts).payload) else none) },
          ?_, ?_, ?_⟩
  · unfold prepareRequest
    dsimp only
    rw [encodeBody_default fs (applyOptions opts) hmi]
  · intro hnone
    dsimp only
    rw [hnone]
    simp only [Option.isSome_none, Bool.false_eq_true, if_false]
    exact lookupStr_append_right (applyOptions opts).headers "Content-Type"
      "application/json" hnone
  · intro p hp
    dsimp only
    rw [hp]
    simp only [Option.isSome_some, Bool.true_or, if_true]
    rfl

/-- Witness for C9: a call with a JSON-able payload and no headers at all. -/
theorem default_content_type_json_witness :
    (lookupStr (applyOptions [TReqOption.withPayload
        (some (GoVal.anyMap [("name", GoVal.str "morpheus")]))]).headers "Content-Type"
        = none ∨
     lookupStr (applyOptions [TReqOption.withPayload
        (some (GoVal.anyMap [("name", GoVal.str "morpheus")]))]).headers "Content-Type"
        = some "application/json") ∧
    (∃ h₁ req,
      prepareRequest fixH0 fixFs "POST" fixURL
          [TReqOption.withPayload (some (GoVal.anyMap [("name", GoVal.str "morpheus")]))]
        = .ok (h₁, req) ∧
      (lookupStr (applyOptions [TReqOption.withPayload
          (some (GoVal.anyMap [("name", GoVal.str "morpheus")]))]).headers "Content-Type"
            = none →
         lookupStr req.headers "Content-Type" = some "application/json") ∧
      (∀ p, (applyOptions [TReqOption.withPayload
          (some (GoVal.anyMap [("name", GoVal.str "morpheus")]))]).payload = some p →
         req.body = some (jsonMarshalVal p))) :=
  ⟨Or.inl rfl,
    default_content_type_json fixH0 fixFs "POST" fixURL
      [TReqOption.withPayload (some (GoVal.anyMap [("name", GoVal.str "morpheus")]))]
      (Or.inl rfl)⟩

end Easyrqst
